import Mathlib

/-!
Shallow embedding of the screen-recorder transcode-job subsystem and its
collaborators, translated from the TypeScript sources:

* `src/services/encoding-job.ts` (class `EncodingJob`),
* `src/services/processing-job-factory.ts` (class `ProcessingJobFactory`),
* `src/services/audio-mixer.service.ts` (class `AudioMixerService`).

JavaScript numbers are modelled with `Nat`/`Int`/`ℚ` (all arithmetic the
embedded code performs stays well inside the exactly-representable range of
IEEE doubles, so rational arithmetic is exact for it), strings with
`List Char`, and `Blob` as an ordered byte list plus a declared MIME type.
The asynchronous single-threaded execution of one `encode()` run is modelled
by an explicit schedule that says which external events (engine log lines,
engine progress ticks, calls to `cancel()`, the engine's own result) occur at
the run's await points, in which order.
-/

/-- A binary blob: ordered byte contents plus a declared MIME type
(the DOM `Blob` as used by the services). `new Blob(parts, opts)`
concatenates the parts' bytes. -/
structure Blob where
  bytes : List Nat
  mimeType : String
deriving DecidableEq, Repr

/-- The mutable instance fields of `EncodingJob` (encoding-job.ts, lines
19-30).  `ffmpegLive` models whether `this.ffmpeg` is non-null, and the two
`has…Callback` flags model whether the optional constructor callbacks were
registered (the code only ever tests them for truthiness before invoking
them). -/
structure JobState where
  ffmpegLive : Bool
  currentFrame : Nat
  totalFrames : Int
  estimatedDuration : ℚ
  lastLogMessage : List Char
  isCancelled : Bool
  isProcessing : Bool
  hasProgressCallback : Bool
  hasCancellationCallback : Bool
  safetyTimeoutMs : ℚ
deriving DecidableEq, Repr

/-- The state of a freshly constructed `EncodingJob` (constructor, lines
32-40, together with the field initializers). -/
def initialJobState (hasProgress hasCancellation : Bool) : JobState where
  ffmpegLive := false
  currentFrame := 0
  totalFrames := 0
  estimatedDuration := 0
  lastLogMessage := []
  isCancelled := false
  isProcessing := false
  hasProgressCallback := hasProgress
  hasCancellationCallback := hasCancellation
  safetyTimeoutMs := 180000

/-- Observable callback invocations made by a job: one entry per call of the
caller's progress callback (with the reported ratio) or of the caller's
cancellation callback. -/
inductive Ev where
  | progressReport (value : ℚ)
  | cancelReport
deriving DecidableEq, Repr

/-- `EncodingJob.calculateProgress` (lines 321-336). -/
def calculateProgress (s : JobState) : ℚ :=
  if s.currentFrame = 0 then
    0.05
  else if s.totalFrames > (s.currentFrame : Int) ∧ s.totalFrames > 10 then
    min (0.1 + ((s.currentFrame : ℚ) / (s.totalFrames : ℚ)) * 0.9) 0.99
  else
    min (0.1 + (min (s.currentFrame : ℚ) 300) / 300 * 0.89) 0.99

/-- `EncodingJob.cancel` (lines 87-103): a no-op when not processing;
otherwise it sets the cancellation flag, terminates the FFmpeg instance and
fires the cancellation callback (once per call — there is no guard against
repeated calls while the run is still processing).  Returns the updated
state and the callback events fired synchronously by this call. -/
def cancelOp (s : JobState) : JobState × List Ev :=
  if s.isProcessing = false then (s, [])
  else
    ({ s with isCancelled := true, ffmpegLive := false },
     if s.hasCancellationCallback then [Ev.cancelReport] else [])

/-- The synchronous entry of `EncodingJob.encode` (lines 46-52): fail fast if
already processing, otherwise mark the job processing and clear the
cancellation flag.  Note that none of the progress counters
(`currentFrame`, `totalFrames`, `estimatedDuration`) are touched here. -/
def encodeEntry (s : JobState) : Except String JobState :=
  if s.isProcessing then Except.error ("Job is already processing")
  else Except.ok { s with isProcessing := true, isCancelled := false }

/-- `EncodingJob.destroy` (lines 109-123): cancel first if still processing,
then release the FFmpeg instance, null both callbacks and zero the message
buffer and all progress counters. -/
def destroyOp (s : JobState) : JobState × List Ev :=
  let scanResult := if s.isProcessing then cancelOp s else (s, [])
  ({ scanResult.1 with
      ffmpegLive := false
      hasProgressCallback := false
      hasCancellationCallback := false
      lastLogMessage := []
      currentFrame := 0
      totalFrames := 0
      estimatedDuration := 0 }, scanResult.2)

/-! ### Diagnostic-line parsing (`extractTimeFromLog`, lines 341-409)

The JS code scrapes FFmpeg log lines with the regular expressions
`/frame=\s*(\d+)/`, `/Duration:\s*([\d:.]+)/`, `/(\d+(?:\.\d+)?)\s*fps/` and
`/(\d+)x(\d+)/`.  Each is simple enough that its leftmost-match semantics is
reproduced by a deterministic left-to-right scan: for each of these patterns
backtracking inside a candidate match can never turn a failure into a
success (shortening a maximal digit / whitespace run always puts a character
of the same class where a different literal is required), so maximal-munch
at each start position is exact. -/

/-- Maximal leading run of decimal digits. -/
def takeDigits : List Char → List Char
  | [] => []
  | c :: cs => if c.isDigit then c :: takeDigits cs else []

/-- Remainder after the maximal leading run of decimal digits. -/
def dropDigits : List Char → List Char
  | [] => []
  | c :: cs => if c.isDigit then dropDigits cs else c :: cs

/-- Remainder after leading whitespace (the `\s*` of the regexes; the log
lines only ever contain the four listed whitespace characters). -/
def dropWs : List Char → List Char
  | [] => []
  | c :: cs => if c = ' ' ∨ c = '\t' ∨ c = '\n' ∨ c = '\r' then dropWs cs else c :: cs

/-- Decimal value of a digit string. -/
def digitsToNat (ds : List Char) : Nat :=
  ds.foldl (fun acc c => acc * 10 + (c.toNat - 48)) 0

/-- `parseInt(s, 10)` on the captured substrings (which never carry signs or
leading whitespace): the value of the leading digit run, `none` (JS `NaN`)
when there is none. -/
def jsParseInt (cs : List Char) : Option Nat :=
  let ds := takeDigits cs
  if ds.isEmpty then none else some (digitsToNat ds)

/-- `parseFloat` on the captured substrings (digits and dots only):
`digits [ "." digits ]`, `none` (JS `NaN`) when no digit is read. -/
def jsParseFloat (cs : List Char) : Option ℚ :=
  let ip := takeDigits cs
  match dropDigits cs with
  | '.' :: r =>
      let fp := takeDigits r
      if ip.isEmpty ∧ fp.isEmpty then none
      else some ((digitsToNat ip : ℚ) + (digitsToNat fp : ℚ) / ((10 ^ fp.length : Nat) : ℚ))
  | _ => if ip.isEmpty then none else some (digitsToNat ip)

/-- Consume a literal prefix, returning the remainder on success. -/
def dropLit : List Char → List Char → Option (List Char)
  | [], s => some s
  | _, [] => none
  | p :: ps, c :: cs => if p = c then dropLit ps cs else none

/-- `String.includes` of the JS code. -/
def containsSub (p : List Char) : List Char → Bool
  | [] => p.isEmpty
  | c :: cs => p.isPrefixOf (c :: cs) || containsSub p cs

/-- Leftmost match of `/frame=\s*(\d+)/`: the captured frame number. -/
def scanFrame : List Char → Option Nat
  | [] => none
  | c :: cs =>
    match dropLit ("frame=".toList) (c :: cs) with
    | some rem =>
        let ds := takeDigits (dropWs rem)
        if ds.isEmpty then scanFrame cs else some (digitsToNat ds)
    | none => scanFrame cs

/-- Maximal leading run of characters in the class `[\d:.]`. -/
def takeDurChars : List Char → List Char
  | [] => []
  | c :: cs => if c.isDigit ∨ c = ':' ∨ c = '.' then c :: takeDurChars cs else []

/-- Leftmost match of `/Duration:\s*([\d:.]+)/`: the captured substring. -/
def scanDuration : List Char → Option (List Char)
  | [] => none
  | c :: cs =>
    match dropLit ("Duration:".toList) (c :: cs) with
    | some rem =>
        let run := takeDurChars (dropWs rem)
        if run.isEmpty then scanDuration cs else some run
    | none => scanDuration cs

/-- `String.split(':')` (keeping empty fields). -/
def splitColon : List Char → List (List Char)
  | [] => [[]]
  | c :: rest =>
      let r := splitColon rest
      if c = ':' then [] :: r
      else
        match r with
        | [] => [[c]]
        | h :: t => (c :: h) :: t

/-- Try `/(\d+(?:\.\d+)?)\s*fps/` anchored at the start of `cs`; on success
return `parseFloat` of the captured group. -/
def fpsAt (cs : List Char) : Option ℚ :=
  let ds := takeDigits cs
  if ds.isEmpty then none
  else
    let rest1 := dropDigits cs
    let vr : ℚ × List Char :=
      match rest1 with
      | '.' :: r =>
          let fp := takeDigits r
          if fp.isEmpty then ((digitsToNat ds : ℚ), rest1)
          else ((digitsToNat ds : ℚ) + (digitsToNat fp : ℚ) / ((10 ^ fp.length : Nat) : ℚ), dropDigits r)
      | _ => ((digitsToNat ds : ℚ), rest1)
    if ("fps".toList).isPrefixOf (dropWs vr.2) then some vr.1 else none

/-- Leftmost match of `/(\d+(?:\.\d+)?)\s*fps/`. -/
def scanFps : List Char → Option ℚ
  | [] => none
  | c :: cs =>
    match fpsAt (c :: cs) with
    | some v => some v
    | none => scanFps cs

/-- Try `/(\d+)x(\d+)/` anchored at the start of `cs`. -/
def resolutionAt (cs : List Char) : Option (Nat × Nat) :=
  let ds := takeDigits cs
  if ds.isEmpty then none
  else
    match dropDigits cs with
    | 'x' :: r =>
        let ds2 := takeDigits r
        if ds2.isEmpty then none else some (digitsToNat ds, digitsToNat ds2)
    | _ => none

/-- Leftmost match of `/(\d+)x(\d+)/`: width and height. -/
def scanResolution : List Char → Option (Nat × Nat)
  | [] => none
  | c :: cs =>
    match resolutionAt (c :: cs) with
    | some wh => some wh
    | none => scanResolution cs

/-- The complexity heuristic of encoding-job.ts line 399:
`Math.min(pixelCount / (1920 * 1080), 4)`. -/
def complexityFactor (width height : Nat) : ℚ :=
  min (((width * height : Nat) : ℚ) / (1920 * 1080)) 4

/-- `EncodingJob.adjustSafetyTimeout` (lines 414-420):
`min(180000 * complexityFactor, 600000)`. -/
def adjustSafetyTimeout (s : JobState) (factor : ℚ) : JobState :=
  { s with safetyTimeoutMs := min (180000 * factor) 600000 }

/-- First section of `extractTimeFromLog` (lines 342-346): current frame. -/
def extractFrameSection (s : JobState) (msg : List Char) : JobState :=
  match scanFrame msg with
  | some n => { s with currentFrame := n }
  | none => s

/-- Second section of `extractTimeFromLog` (lines 348-364): total duration,
only if not already known (`!this.estimatedDuration`, i.e. it is still `0`),
plus a 30 fps total-frame default when no estimate exists yet. -/
def extractDurationSection (s : JobState) (msg : List Char) : JobState :=
  match scanDuration msg with
  | some run =>
      if s.estimatedDuration ≠ 0 then s
      else
        match splitColon run with
        | [p0, p1, p2] =>
            let hours := (jsParseInt p0).getD 0
            let minutes := (jsParseInt p1).getD 0
            let seconds := (jsParseFloat p2).getD 0
            let dur : ℚ := hours * 3600 + minutes * 60 + seconds
            let s1 := { s with estimatedDuration := dur }
            if s1.totalFrames ≤ 0 then { s1 with totalFrames := round (dur * 30) } else s1
        | _ => s
  | none => s

/-- Third section of `extractTimeFromLog` (lines 366-374): fps-based
total-frame estimate. -/
def extractFpsSection (s : JobState) (msg : List Char) : JobState :=
  match scanFps msg with
  | some fps =>
      if fps > 0 ∧ s.estimatedDuration ≠ 0 ∧ s.totalFrames ≤ 0 then
        { s with totalFrames := round (s.estimatedDuration * fps) }
      else s
  | none => s

/-- Fourth section of `extractTimeFromLog` (lines 376-386): stream-info fps
recomputation. -/
def extractStreamFpsSection (s : JobState) (msg : List Char) : JobState :=
  if containsSub ("Video:".toList) msg && containsSub ("fps".toList) msg then
    match scanFps msg with
    | some streamFps =>
        if streamFps > 0 ∧ s.estimatedDuration ≠ 0 then
          { s with totalFrames := round (s.estimatedDuration * streamFps) }
        else s
    | none => s
  else s

/-- Fifth section of `extractTimeFromLog` (lines 388-408): the
unknown-duration special case, deriving a complexity factor from the
resolution, a default frame count, and the adjusted safety timeout. -/
def extractNaSection (s : JobState) (msg : List Char) : JobState :=
  if containsSub ("Duration: N/A".toList) msg && containsSub ("Video:".toList) msg then
    match scanResolution msg with
    | some wh =>
        let factor := complexityFactor wh.1 wh.2
        let s1 := { s with totalFrames := max s.totalFrames (round ((1800 : ℚ) * factor)) }
        adjustSafetyTimeout s1 factor
    | none => s
  else s

/-- `EncodingJob.extractTimeFromLog` (lines 341-409): the five sections in
source order. -/
def extractTimeFromLog (s : JobState) (msg : List Char) : JobState :=
  extractNaSection
    (extractStreamFpsSection
      (extractFpsSection
        (extractDurationSection (extractFrameSection s msg) msg) msg) msg) msg

/-! ### One asynchronous run of `EncodingJob.encode`

`encode()` (lines 46-81) and `transcodeToMp4` (lines 198-306) run on the
single JS thread and suspend at their `await`s; external events — the FFmpeg
`log` and `progress` handlers installed by `initializeFFmpeg` (lines
128-162), calls to `cancel()` from the owner, and the engine invocation's
own settlement — interleave only at those suspension points.  A `Sched`
records which external events occur at which suspension window, and
`runEncode` replays the source control flow under that schedule, collecting
every caller-visible callback invocation in order. -/

/-- External events that can occur while the job is waiting inside
`transcodeToMp4`: an FFmpeg log line (the `log` handler, lines 133-141), an
FFmpeg progress tick (the `progress` handler, lines 144-155), or a call to
`EncodingJob.cancel` by the owner. -/
inductive ExecEv where
  | logLine (msg : List Char)
  | tick
  | cancelInject
deriving DecidableEq, Repr

/-- How the main engine invocation (`ffmpeg.exec`, lines 255-278) settles:
it resolves, it rejects with an engine error, or it never settles on its own
(so the safety timeout of lines 245-251 eventually fires). -/
inductive EngineRes where
  | succeed
  | fail
  | hang
deriving DecidableEq, Repr

/-- The FFmpeg `log` handler (lines 133-141): ignored after cancellation,
otherwise stores the message and feeds `extractTimeFromLog`. -/
def logHandler (s : JobState) (msg : List Char) : JobState :=
  if s.isCancelled then s
  else extractTimeFromLog { s with lastLogMessage := msg } msg

/-- The FFmpeg `progress` handler (lines 144-155): ignored after
cancellation, otherwise reports `calculateProgress` to the progress
callback when one is registered. -/
def progressHandler (s : JobState) : List Ev :=
  if s.isCancelled then []
  else if s.hasProgressCallback then [Ev.progressReport (calculateProgress s)] else []

/-- Effect of one external event during a suspension window. -/
def execStep (s : JobState) : ExecEv → JobState × List Ev
  | ExecEv.logLine msg => (logHandler s msg, [])
  | ExecEv.tick => (s, progressHandler s)
  | ExecEv.cancelInject => cancelOp s

/-- Replay a sequence of external events, concatenating the callback
invocations they cause. -/
def execPhase (s : JobState) : List ExecEv → JobState × List Ev
  | [] => (s, [])
  | e :: es =>
      let r := execStep s e
      let r' := execPhase r.1 es
      (r'.1, r.2 ++ r'.2)

/-- A schedule for one `encode()` run: whether the owner calls `cancel()`
while `initializeFFmpeg` is being awaited (line 56), the external events
during the input-write/pre-analysis awaits (lines 211-217), the external
events while the main engine invocation is pending (lines 222-284), the
engine invocation's own behaviour, whether the owner calls `cancel()` during
the output read-back awaits (lines 287-291), and the bytes of `output.mp4`
produced by a successful engine run. -/
structure Sched where
  cancelDuringInit : Bool
  preEvents : List ExecEv
  execEvents : List ExecEv
  engine : EngineRes
  cancelDuringReadback : Bool
  encodedBytes : List Nat
deriving Repr

/-- Terminal result of one run: `encode()` resolved with the transcoded
container, resolved with the pass-through fallback container (lines
302-304), rejected with `Operation cancelled` (`timedOut` records whether the
cancellation was initiated by the safety timeout of lines 245-251), or
rejected synchronously with `Job is already processing` (line 48). -/
inductive RunOutcome where
  | completed (b : Blob)
  | fallback (b : Blob)
  | errCancelled (timedOut : Bool)
  | errAlreadyProcessing
deriving DecidableEq, Repr

/-- `true` exactly on the `completed` outcome. -/
def RunOutcome.isDone : RunOutcome → Bool
  | RunOutcome.completed _ => true
  | _ => false

/-- `true` exactly on the `fallback` outcome. -/
def RunOutcome.isFallbackResult : RunOutcome → Bool
  | RunOutcome.fallback _ => true
  | _ => false

/-- Everything observable about one finished run. -/
structure RunResult where
  events : List Ev
  outcome : RunOutcome
  finalState : JobState
deriving Repr

/-- Tail of every cancelled run: `transcodeToMp4` throws
`Operation cancelled` (line 299 or one of the rejections), the `catch` of
`encode` (lines 72-77) fires the cancellation callback once more since the
job is cancelled, and the `finally` (line 79) clears the processing flag. -/
def finishCancelled (s : JobState) (evs : List Ev) (timedOut : Bool) : RunResult where
  events := evs ++ (if s.isCancelled && s.hasCancellationCallback then [Ev.cancelReport] else [])
  outcome := RunOutcome.errCancelled timedOut
  finalState := { s with isProcessing := false }

/-- The pass-through fallback container of line 304:
`new Blob(chunks, { type: 'video/mp4' })`. -/
def fallbackBlob (chunks : List Blob) : Blob where
  bytes := (chunks.map Blob.bytes).flatten
  mimeType := "video/mp4"

/-- The engine-invocation race of lines 222-284 plus the read-back and
return of lines 287-294 and the completion report of lines 66-69, entered
with an uncancelled job; `pref` accumulates the caller-visible events of the
earlier phases. -/
def execRace (pref : List Ev) (s : JobState) (chunks : List Blob) (sched : Sched) : RunResult :=
  -- events arriving while the engine invocation races the abort listener,
  -- the 20 ms cancellation poll (lines 236-242) and the safety timeout
  let r6 := execPhase s sched.execEvents
  match sched.engine with
  | EngineRes.fail =>
      -- the invocation rejects; catch of lines 295-305
      if r6.1.isCancelled then
        finishCancelled r6.1 (pref ++ r6.2) false
      else
        -- lines 302-304 fallback, then lines 66-69 report completion
        { events := (pref ++ r6.2) ++
            (if r6.1.hasProgressCallback then [Ev.progressReport 1] else []),
          outcome := RunOutcome.fallback (fallbackBlob chunks),
          finalState := { r6.1 with isProcessing := false } }
  | EngineRes.hang =>
      if r6.1.isCancelled then
        -- the 20 ms poll of lines 236-242 already rejected
        finishCancelled r6.1 (pref ++ r6.2) false
      else
        -- lines 245-251: the safety timeout calls `cancel()` itself, then
        -- rejects; the catch of line 298 still converts the rejection into
        -- `Operation cancelled`
        let r7 := cancelOp r6.1
        finishCancelled r7.1 (pref ++ r6.2 ++ r7.2) true
  | EngineRes.succeed =>
      if r6.1.isCancelled then
        -- lines 268-271: resolution after cancellation still rejects
        finishCancelled r6.1 (pref ++ r6.2) false
      else
        -- lines 287-291: read-back awaits; `cancel()` meanwhile nulls
        -- `this.ffmpeg`, so the next file operation throws and the catch of
        -- lines 295-300 rethrows `Operation cancelled`
        let r8 := if sched.cancelDuringReadback then cancelOp r6.1 else (r6.1, [])
        if r8.1.isCancelled then
          finishCancelled r8.1 (pref ++ r6.2 ++ r8.2) false
        else
          -- line 294 result, then lines 66-69 report completion
          { events := (pref ++ r6.2 ++ r8.2) ++
              (if r8.1.hasProgressCallback then [Ev.progressReport 1] else []),
            outcome := RunOutcome.completed ⟨sched.encodedBytes, "video/mp4"⟩,
            finalState := { r8.1 with isProcessing := false } }

/-- `transcodeToMp4` (lines 198-306) from its entry check onwards. -/
def transcodePhase (pref : List Ev) (s : JobState) (chunks : List Blob) (sched : Sched) :
    RunResult :=
  -- line 206: throw when already cancelled
  if s.isCancelled then
    finishCancelled s pref false
  else
    -- lines 211-217: input write and pre-analysis awaits
    let r4 := execPhase s sched.preEvents
    -- lines 186-189: conservative default frame estimate after pre-analysis
    let s5 : JobState :=
      if r4.1.totalFrames ≤ 0 then { r4.1 with totalFrames := 300 } else r4.1
    -- lines 224-227: the promise rejects at once when already cancelled
    if s5.isCancelled then
      finishCancelled s5 (pref ++ r4.2) false
    else
      execRace (pref ++ r4.2) s5 chunks sched

/-- Lines 51-61 of `encode`: mark the job processing, await
`initializeFFmpeg` (during which `cancel()` may run), store the instance and
make the initial `0.05` report — which the source does *not* guard with
`isCancelled`.  Returns the state at entry to `transcodeToMp4` and the
events fired so far. -/
def initStage (s0 : JobState) (sched : Sched) : JobState × List Ev :=
  -- lines 51-52
  let s1 : JobState := { s0 with isProcessing := true, isCancelled := false }
  -- line 56: `await this.initializeFFmpeg()`; `cancel()` may run meanwhile
  let r2 := if sched.cancelDuringInit then cancelOp s1 else (s1, [])
  -- resumption of line 56: `this.ffmpeg = …`
  let s3 : JobState := { r2.1 with ffmpegLive := true }
  -- lines 59-61: initial report, with no cancellation guard
  (s3, r2.2 ++ (if s3.hasProgressCallback then [Ev.progressReport 0.05] else []))

/-- One full run of `EncodingJob.encode` under schedule `sched`, starting
from instance state `s0`, on input segments `chunks`. -/
def runEncode (s0 : JobState) (chunks : List Blob) (sched : Sched) : RunResult :=
  if s0.isProcessing then
    -- line 48: fail fast, no state change
    { events := [], outcome := RunOutcome.errAlreadyProcessing, finalState := s0 }
  else
    -- lines 51-61, then line 64: `transcodeToMp4`
    transcodePhase (initStage s0 sched).2 (initStage s0 sched).1 chunks sched

/-- Value of the last progress-callback invocation in a trace, if any. -/
def lastProgressValue : List Ev → Option ℚ
  | [] => none
  | Ev.progressReport q :: rest =>
      match lastProgressValue rest with
      | some r => some r
      | none => some q
  | Ev.cancelReport :: rest => lastProgressValue rest

/-- Number of cancellation-callback invocations in a trace. -/
def countCancelReports (evs : List Ev) : Nat :=
  (evs.filter fun e => e == Ev.cancelReport).length

/-- `true` when the trace contains a progress-callback invocation occurring
after some cancellation-callback invocation. -/
def progressAfterCancel : List Ev → Bool
  | [] => false
  | Ev.cancelReport :: rest =>
      rest.any (fun e => match e with | Ev.progressReport _ => true | _ => false) ||
        progressAfterCancel rest
  | Ev.progressReport _ :: rest => progressAfterCancel rest

/-! ### `AudioMixerService` (audio-mixer.service.ts) -/

/-- The Web Audio nodes `createMixedAudioStream` can allocate. -/
inductive NodeId where
  | audioCtx
  | analyzer
  | destNode
  | micCompressor
  | systemCompressor
  | voiceEnhancer
  | finalLimiter
  | micSourceNode
  | micGainNode
  | micPresenceCompressor
  | systemSourceNode
  | systemGainNode
deriving DecidableEq, Repr

/-- A `MediaStream` as the mixer inspects it: only its number of audio
tracks matters (`getAudioTracks().length`). -/
structure MediaStreamM where
  audioTrackCount : Nat
deriving DecidableEq, Repr

/-- The instance fields of `AudioMixerService` (lines 8-14): which long-lived
references are currently non-null, plus the gain values last assigned. -/
structure MixerState where
  hasContext : Bool
  hasDestination : Bool
  hasAnalyzer : Bool
  hasSystemSource : Bool
  hasMicSource : Bool
  systemGainValue : Option ℚ
  micGainValue : Option ℚ
deriving DecidableEq, Repr

/-- `AudioMixerService.cleanup` (lines 215-254): closes the context,
defensively disconnects every node and nulls every reference, regardless of
the previous state. -/
def cleanupOp (_s : MixerState) : MixerState where
  hasContext := false
  hasDestination := false
  hasAnalyzer := false
  hasSystemSource := false
  hasMicSource := false
  systemGainValue := none
  micGainValue := none

/-- What one call to `createMixedAudioStream` did: its return value, the
instance state it leaves behind, every node it allocated (in allocation
order) and every `connect` edge it installed (in installation order). -/
structure MixResult where
  output : Option Unit
  state : MixerState
  created : List NodeId
  connections : List (NodeId × NodeId)
deriving DecidableEq, Repr

/-- `AudioMixerService.createMixedAudioStream` (lines 23-133): clean up the
previous graph, return null when neither source is given, otherwise build
the context, the analyser, the destination, the two per-source compressors,
the voice enhancer and the final limiter, and attach an independent
gain/compression chain for each source that is present *and* has at least
one audio track. -/
def createMixedAudioStream (s : MixerState) (systemStream micStream : Option MediaStreamM) :
    MixResult :=
  -- line 26: cleanup of any previous context
  let s1 := cleanupOp s
  -- lines 29-32: validation
  if systemStream = none ∧ micStream = none then
    { output := none, state := s1, created := [], connections := [] }
  else
    -- lines 35-43: context, analyser, destination
    let s2 := { s1 with hasContext := true, hasAnalyzer := true, hasDestination := true }
    -- lines 49-77: compressors, voice enhancer, final limiter
    let baseCreated : List NodeId :=
      [NodeId.audioCtx, NodeId.analyzer, NodeId.destNode, NodeId.micCompressor,
       NodeId.systemCompressor, NodeId.voiceEnhancer, NodeId.finalLimiter]
    -- lines 80-81
    let baseConn : List (NodeId × NodeId) :=
      [(NodeId.finalLimiter, NodeId.destNode), (NodeId.finalLimiter, NodeId.analyzer)]
    -- lines 84-107: microphone chain
    let micPart : MixerState × List NodeId × List (NodeId × NodeId) :=
      match micStream with
      | some m =>
          if 0 < m.audioTrackCount then
            ({ s2 with hasMicSource := true, micGainValue := some 2.8 },
             [NodeId.micSourceNode, NodeId.micGainNode, NodeId.micPresenceCompressor],
             [(NodeId.micSourceNode, NodeId.micGainNode),
              (NodeId.micGainNode, NodeId.micPresenceCompressor),
              (NodeId.micPresenceCompressor, NodeId.voiceEnhancer),
              (NodeId.voiceEnhancer, NodeId.micCompressor),
              (NodeId.micCompressor, NodeId.finalLimiter)])
          else (s2, [], [])
      | none => (s2, [], [])
    -- lines 110-122: system chain
    let sysPart : MixerState × List NodeId × List (NodeId × NodeId) :=
      match systemStream with
      | some m =>
          if 0 < m.audioTrackCount then
            ({ micPart.1 with hasSystemSource := true, systemGainValue := some 1.5 },
             [NodeId.systemSourceNode, NodeId.systemGainNode],
             [(NodeId.systemSourceNode, NodeId.systemGainNode),
              (NodeId.systemGainNode, NodeId.systemCompressor),
              (NodeId.systemCompressor, NodeId.finalLimiter)])
          else (micPart.1, [], [])
      | none => (micPart.1, [], [])
    -- line 127: `return this.mixedDestination.stream`
    { output := some ()
      state := sysPart.1
      created := baseCreated ++ micPart.2.1 ++ sysPart.2.1
      connections := baseConn ++ micPart.2.2 ++ sysPart.2.2 }

/-! ### `ProcessingJobFactory` (processing-job-factory.ts) -/

/-- The factory's `activeJobs` set (line 10), as a duplicate-free list of
job identities. -/
structure FactoryState where
  activeJobs : List Nat
deriving DecidableEq, Repr

/-- `ProcessingJobFactory.createEncodingJob` (lines 16-42): the new job is
added to the tracking set (`Set.add`). -/
def createEncodingJobOp (fs : FactoryState) (jobId : Nat) : FactoryState where
  activeJobs := if jobId ∈ fs.activeJobs then fs.activeJobs else fs.activeJobs ++ [jobId]

/-- The deferred cleanup scheduled by the wrapped cancellation callback
(lines 27-32): delete the job iff it is still tracked.  Returns the new
state and whether a deletion actually happened. -/
def autoRemove (fs : FactoryState) (jobId : Nat) : FactoryState × Bool :=
  if jobId ∈ fs.activeJobs then ({ activeJobs := fs.activeJobs.erase jobId }, true)
  else (fs, false)

/-- `n` firings of the wrapped cancellation callback each schedule one
deferred `autoRemove`; returns the final registry state and how many actual
deletions occurred. -/
def autoRemoveN (fs : FactoryState) (jobId : Nat) : Nat → FactoryState × Nat
  | 0 => (fs, 0)
  | n + 1 =>
      let r := autoRemove fs jobId
      let r' := autoRemoveN r.1 jobId n
      (r'.1, (if r.2 then 1 else 0) + r'.2)

/-- Registry-side effect of one finished run of a job created by
`createEncodingJob`: the factory wraps only the *cancellation* callback
(lines 21-33), so one `autoRemove` is scheduled per cancellation-callback
firing and nothing at all is scheduled on the successful-completion path. -/
def registryEffects (fs : FactoryState) (jobId : Nat) (run : RunResult) : FactoryState × Nat :=
  autoRemoveN fs jobId (countCancelReports run.events)

/-- `ProcessingJobFactory.cancelAllJobs` (lines 48-65): iterates `cancel()`
over a snapshot of the set (job-side effects, with per-job error trapping)
and then clears the set. -/
def cancelAllJobs (_fs : FactoryState) : FactoryState where
  activeJobs := []

/-- `ProcessingJobFactory.getActiveJobCount` (lines 70-72). -/
def getActiveJobCount (fs : FactoryState) : Nat :=
  fs.activeJobs.length

/-! ### Helper lemmas -/

/-- The cancellation/processing/callback-registration fields of a job state,
bundled for preservation lemmas. -/
def JobState.ctrl (s : JobState) : Bool × Bool × Bool × Bool :=
  (s.isCancelled, s.isProcessing, s.hasProgressCallback, s.hasCancellationCallback)

theorem extractFrameSection_ctrl (s : JobState) (msg : List Char) :
    (extractFrameSection s msg).ctrl = s.ctrl := by
  unfold extractFrameSection
  repeat' split
  all_goals rfl

theorem extractDurationSection_ctrl (s : JobState) (msg : List Char) :
    (extractDurationSection s msg).ctrl = s.ctrl := by
  unfold extractDurationSection
  repeat' split
  all_goals try rfl
  all_goals (dsimp only []; split <;> rfl)

theorem extractFpsSection_ctrl (s : JobState) (msg : List Char) :
    (extractFpsSection s msg).ctrl = s.ctrl := by
  unfold extractFpsSection
  repeat' split
  all_goals rfl

theorem extractStreamFpsSection_ctrl (s : JobState) (msg : List Char) :
    (extractStreamFpsSection s msg).ctrl = s.ctrl := by
  unfold extractStreamFpsSection
  repeat' split
  all_goals rfl

theorem extractNaSection_ctrl (s : JobState) (msg : List Char) :
    (extractNaSection s msg).ctrl = s.ctrl := by
  unfold extractNaSection adjustSafetyTimeout
  repeat' split
  all_goals rfl

theorem extractTimeFromLog_ctrl (s : JobState) (msg : List Char) :
    (extractTimeFromLog s msg).ctrl = s.ctrl := by
  unfold extractTimeFromLog
  rw [extractNaSection_ctrl, extractStreamFpsSection_ctrl, extractFpsSection_ctrl,
    extractDurationSection_ctrl, extractFrameSection_ctrl]

theorem logHandler_ctrl (s : JobState) (msg : List Char) :
    (logHandler s msg).ctrl = s.ctrl := by
  unfold logHandler
  split
  · rfl
  · rw [extractTimeFromLog_ctrl]
    rfl

theorem extractFrameSection_safety (s : JobState) (msg : List Char) :
    (extractFrameSection s msg).safetyTimeoutMs = s.safetyTimeoutMs := by
  unfold extractFrameSection
  repeat' split
  all_goals rfl

theorem extractDurationSection_safety (s : JobState) (msg : List Char) :
    (extractDurationSection s msg).safetyTimeoutMs = s.safetyTimeoutMs := by
  unfold extractDurationSection
  repeat' split
  all_goals try rfl
  all_goals (dsimp only []; split <;> rfl)

theorem extractFpsSection_safety (s : JobState) (msg : List Char) :
    (extractFpsSection s msg).safetyTimeoutMs = s.safetyTimeoutMs := by
  unfold extractFpsSection
  repeat' split
  all_goals rfl

theorem extractStreamFpsSection_safety (s : JobState) (msg : List Char) :
    (extractStreamFpsSection s msg).safetyTimeoutMs = s.safetyTimeoutMs := by
  unfold extractStreamFpsSection
  repeat' split
  all_goals rfl

theorem calculateProgress_lt_one (s : JobState) : calculateProgress s < 1 := by
  unfold calculateProgress
  split
  · norm_num
  split
  · exact lt_of_le_of_lt (min_le_right _ _) (by norm_num)
  · exact lt_of_le_of_lt (min_le_right _ _) (by norm_num)

/-- No progress-callback invocation in the trace reported the value `1`. -/
def NoOneReport (l : List Ev) : Prop :=
  ∀ q : ℚ, Ev.progressReport q ∈ l → q ≠ 1

theorem noOneReport_nil : NoOneReport [] := by
  intro q hq
  cases hq

theorem noOneReport_append {l1 l2 : List Ev} (h1 : NoOneReport l1) (h2 : NoOneReport l2) :
    NoOneReport (l1 ++ l2) := by
  intro q hq
  rcases List.mem_append.mp hq with h | h
  · exact h1 q h
  · exact h2 q h

theorem noOneReport_cancelOp (s : JobState) : NoOneReport (cancelOp s).2 := by
  unfold cancelOp
  repeat' split
  all_goals intro q hq
  all_goals simp_all

theorem noOneReport_initial (b : Bool) :
    NoOneReport (if b = true then [Ev.progressReport 0.05] else []) := by
  cases b
  · simpa using noOneReport_nil
  · intro q hq
    simp at hq
    subst hq
    norm_num

theorem noOneReport_progressHandler (s : JobState) : NoOneReport (progressHandler s) := by
  intro q hq
  unfold progressHandler at hq
  split at hq
  · cases hq
  · split at hq
    · simp only [List.mem_singleton, Ev.progressReport.injEq] at hq
      subst hq
      exact ne_of_lt (calculateProgress_lt_one s)
    · cases hq

theorem noOneReport_execStep (s : JobState) (e : ExecEv) : NoOneReport (execStep s e).2 := by
  cases e
  · exact noOneReport_nil
  · exact noOneReport_progressHandler s
  · exact noOneReport_cancelOp s

theorem noOneReport_execPhase (es : List ExecEv) :
    ∀ s : JobState, NoOneReport (execPhase s es).2 := by
  induction es with
  | nil => intro s; exact noOneReport_nil
  | cons e es ih =>
      intro s
      exact noOneReport_append (noOneReport_execStep s e) (ih (execStep s e).1)

theorem lastProgressValue_append_some {l2 : List Ev} {q : ℚ}
    (h : lastProgressValue l2 = some q) (l1 : List Ev) :
    lastProgressValue (l1 ++ l2) = some q := by
  induction l1 with
  | nil => simpa using h
  | cons e l1 ih =>
      cases e with
      | progressReport v =>
          show (match lastProgressValue (l1 ++ l2) with
                | some r => some r
                | none => some v) = some q
          rw [ih]
      | cancelReport =>
          simpa only [List.cons_append, lastProgressValue] using ih

theorem lastProgressValue_append_none {l2 : List Ev}
    (h : lastProgressValue l2 = none) (l1 : List Ev) :
    lastProgressValue (l1 ++ l2) = lastProgressValue l1 := by
  induction l1 with
  | nil => simpa using h
  | cons e l1 ih =>
      cases e with
      | progressReport v =>
          show (match lastProgressValue (l1 ++ l2) with
                | some r => some r
                | none => some v) =
              (match lastProgressValue l1 with
                | some r => some r
                | none => some v)
          rw [ih]
      | cancelReport =>
          simpa only [List.cons_append, lastProgressValue] using ih

theorem lastProgressValue_mem {l : List Ev} {q : ℚ}
    (h : lastProgressValue l = some q) : Ev.progressReport q ∈ l := by
  induction l with
  | nil => cases h
  | cons e l ih =>
      cases e with
      | progressReport v =>
          by_cases hl : lastProgressValue l = none
          · simp only [lastProgressValue, hl] at h
            cases h
            exact List.mem_cons_self _ _
          · obtain ⟨r, hr⟩ := Option.ne_none_iff_exists'.mp hl
            simp only [lastProgressValue, hr] at h
            cases h
            exact List.mem_cons_of_mem _ (ih hr)
      | cancelReport =>
          simp only [lastProgressValue] at h
          exact List.mem_cons_of_mem _ (ih h)

theorem lastProgressValue_cancelIf (b : Bool) :
    lastProgressValue (if b = true then [Ev.cancelReport] else []) = none := by
  cases b <;> rfl

theorem noOneReport_lastProgressValue {l : List Ev} (h : NoOneReport l) :
    lastProgressValue l ≠ some 1 := by
  intro hcontra
  exact h 1 (lastProgressValue_mem hcontra) rfl

theorem execPhase_ctrlCallbacks (es : List ExecEv) : ∀ s : JobState,
    (execPhase s es).1.hasProgressCallback = s.hasProgressCallback ∧
    (execPhase s es).1.hasCancellationCallback = s.hasCancellationCallback ∧
    (execPhase s es).1.isProcessing = s.isProcessing := by
  induction es with
  | nil => intro s; exact ⟨rfl, rfl, rfl⟩
  | cons e es ih =>
      intro s
      have hstep : (execStep s e).1.hasProgressCallback = s.hasProgressCallback ∧
          (execStep s e).1.hasCancellationCallback = s.hasCancellationCallback ∧
          (execStep s e).1.isProcessing = s.isProcessing := by
        cases e with
        | logLine msg =>
            have h := logHandler_ctrl s msg
            simp only [JobState.ctrl, Prod.mk.injEq] at h
            exact ⟨h.2.2.1, h.2.2.2, h.2.1⟩
        | tick => exact ⟨rfl, rfl, rfl⟩
        | cancelInject =>
            simp only [execStep, cancelOp]
            split
            · exact ⟨rfl, rfl, rfl⟩
            · exact ⟨rfl, rfl, rfl⟩
      obtain ⟨h1, h2, h3⟩ := ih (execStep s e).1
      exact ⟨h1.trans hstep.1, h2.trans hstep.2.1, h3.trans hstep.2.2⟩

theorem noOneReport_boolCancelList (b : Bool) :
    NoOneReport (if b = true then [Ev.cancelReport] else []) := by
  intro q hq
  cases b <;> simp_all

theorem lastProgressValue_cancelOp (s : JobState) :
    lastProgressValue (cancelOp s).2 = none := by
  unfold cancelOp
  repeat' split
  all_goals rfl

theorem noOneReport_cancelIfOp (b : Bool) (s : JobState) :
    NoOneReport (if b = true then cancelOp s else (s, [])).2 := by
  cases b
  · simpa using noOneReport_nil
  · simpa using noOneReport_cancelOp s

theorem cancelOp_isCancelled_of_processing {s : JobState} (h : s.isProcessing = true) :
    (cancelOp s).1.isCancelled = true := by
  simp [cancelOp, h]

theorem cancelOp_ctrlCallbacks (s : JobState) :
    (cancelOp s).1.hasProgressCallback = s.hasProgressCallback ∧
    (cancelOp s).1.hasCancellationCallback = s.hasCancellationCallback ∧
    (cancelOp s).1.isProcessing = s.isProcessing := by
  unfold cancelOp
  split <;> exact ⟨rfl, rfl, rfl⟩

theorem cancelIfOp_ctrlCallbacks (b : Bool) (s : JobState) :
    (if b = true then cancelOp s else (s, [])).1.hasProgressCallback = s.hasProgressCallback ∧
    (if b = true then cancelOp s else (s, [])).1.hasCancellationCallback =
      s.hasCancellationCallback ∧
    (if b = true then cancelOp s else (s, [])).1.isProcessing = s.isProcessing := by
  cases b
  · exact ⟨rfl, rfl, rfl⟩
  · simpa using cancelOp_ctrlCallbacks s

theorem finishCancelled_outcome (s : JobState) (evs : List Ev) (t : Bool) :
    (finishCancelled s evs t).outcome = RunOutcome.errCancelled t := rfl

theorem finishCancelled_isCancelled (s : JobState) (evs : List Ev) (t : Bool) :
    (finishCancelled s evs t).finalState.isCancelled = s.isCancelled := rfl

theorem lastProgressValue_snoc_one (l : List Ev) :
    lastProgressValue (l ++ [Ev.progressReport 1]) = some 1 :=
  @lastProgressValue_append_some [Ev.progressReport 1] 1 rfl l

theorem finishCancelled_events_noOne (s : JobState) {evs : List Ev}
    (h : NoOneReport evs) (t : Bool) : NoOneReport (finishCancelled s evs t).events :=
  noOneReport_append h (noOneReport_boolCancelList _)

/-- Case analysis of `execRace`: every run either ends rejected with
`Operation cancelled` (with the timed-out flag only on the hang path, the
cancellation flag set, and no 1.0 ever reported), or resolves with the
engine-determined container, uncancelled, with 1.0 as the last report. -/
theorem execRace_cases (pref : List Ev) (s : JobState) (chunks : List Blob) (sched : Sched)
    (hproc : s.isProcessing = true) (hpref : NoOneReport pref) :
    (∃ t : Bool, (execRace pref s chunks sched).outcome = RunOutcome.errCancelled t ∧
        (t = true → sched.engine = EngineRes.hang) ∧
        (execRace pref s chunks sched).finalState.isCancelled = true ∧
        NoOneReport (execRace pref s chunks sched).events) ∨
    (((sched.engine = EngineRes.fail ∧
          (execRace pref s chunks sched).outcome = RunOutcome.fallback (fallbackBlob chunks)) ∨
        (sched.engine = EngineRes.succeed ∧
          (execRace pref s chunks sched).outcome =
            RunOutcome.completed ⟨sched.encodedBytes, "video/mp4"⟩)) ∧
      (execRace pref s chunks sched).finalState.isCancelled = false ∧
      (s.hasProgressCallback = true →
        lastProgressValue (execRace pref s chunks sched).events = some 1)) := by
  obtain ⟨hpcb6, hccb6, hproc6⟩ := execPhase_ctrlCallbacks sched.execEvents s
  have hno6 : NoOneReport (execPhase s sched.execEvents).2 :=
    noOneReport_execPhase sched.execEvents s
  unfold execRace
  cases heng : sched.engine with
  | fail =>
      dsimp only
      by_cases h6 : (execPhase s sched.execEvents).1.isCancelled = true
      · rw [if_pos h6]
        exact Or.inl ⟨false, finishCancelled_outcome _ _ _, by simp,
          (finishCancelled_isCancelled _ _ _).trans h6,
          finishCancelled_events_noOne _ (noOneReport_append hpref hno6) _⟩
      · rw [if_neg h6]
        refine Or.inr ⟨Or.inl ⟨rfl, rfl⟩, by simpa using h6, ?_⟩
        intro hp
        rw [hpcb6.trans hp, if_pos rfl]
        exact lastProgressValue_snoc_one _
  | hang =>
      dsimp only
      by_cases h6 : (execPhase s sched.execEvents).1.isCancelled = true
      · rw [if_pos h6]
        exact Or.inl ⟨false, finishCancelled_outcome _ _ _, by simp,
          (finishCancelled_isCancelled _ _ _).trans h6,
          finishCancelled_events_noOne _ (noOneReport_append hpref hno6) _⟩
      · rw [if_neg h6]
        refine Or.inl ⟨true, finishCancelled_outcome _ _ _, fun _ => rfl, ?_, ?_⟩
        · exact (finishCancelled_isCancelled _ _ _).trans
            (cancelOp_isCancelled_of_processing (hproc6.trans hproc))
        · exact finishCancelled_events_noOne _
            (noOneReport_append (noOneReport_append hpref hno6) (noOneReport_cancelOp _)) _
  | succeed =>
      dsimp only
      by_cases h6 : (execPhase s sched.execEvents).1.isCancelled = true
      · rw [if_pos h6]
        exact Or.inl ⟨false, finishCancelled_outcome _ _ _, by simp,
          (finishCancelled_isCancelled _ _ _).trans h6,
          finishCancelled_events_noOne _ (noOneReport_append hpref hno6) _⟩
      · rw [if_neg h6]
        obtain ⟨hpcb8, hccb8, hproc8⟩ :=
          cancelIfOp_ctrlCallbacks sched.cancelDuringReadback (execPhase s sched.execEvents).1
        by_cases h8 : (if sched.cancelDuringReadback = true
            then cancelOp (execPhase s sched.execEvents).1
            else ((execPhase s sched.execEvents).1, [])).1.isCancelled = true
        · rw [if_pos h8]
          exact Or.inl ⟨false, finishCancelled_outcome _ _ _, by simp,
            (finishCancelled_isCancelled _ _ _).trans h8,
            finishCancelled_events_noOne _
              (noOneReport_append (noOneReport_append hpref hno6)
                (noOneReport_cancelIfOp _ _)) _⟩
        · rw [if_neg h8]
          refine Or.inr ⟨Or.inr ⟨rfl, rfl⟩, by simpa using h8, ?_⟩
          intro hp
          rw [hpcb8.trans (hpcb6.trans hp), if_pos rfl]
          exact lastProgressValue_snoc_one _

/-- Case analysis of `transcodePhase`, lifting `execRace_cases` over the
entry cancellation checks and the pre-analysis phase. -/
theorem transcodePhase_cases (pref : List Ev) (s : JobState) (chunks : List Blob) (sched : Sched)
    (hproc : s.isProcessing = true) (hpref : NoOneReport pref) :
    (∃ t : Bool, (transcodePhase pref s chunks sched).outcome = RunOutcome.errCancelled t ∧
        (t = true → sched.engine = EngineRes.hang) ∧
        (transcodePhase pref s chunks sched).finalState.isCancelled = true ∧
        NoOneReport (transcodePhase pref s chunks sched).events) ∨
    (((sched.engine = EngineRes.fail ∧
          (transcodePhase pref s chunks sched).outcome =
            RunOutcome.fallback (fallbackBlob chunks)) ∨
        (sched.engine = EngineRes.succeed ∧
          (transcodePhase pref s chunks sched).outcome =
            RunOutcome.completed ⟨sched.encodedBytes, "video/mp4"⟩)) ∧
      (transcodePhase pref s chunks sched).finalState.isCancelled = false ∧
      (s.hasProgressCallback = true →
        lastProgressValue (transcodePhase pref s chunks sched).events = some 1)) := by
  unfold transcodePhase
  by_cases hc : s.isCancelled = true
  · rw [if_pos hc]
    exact Or.inl ⟨false, finishCancelled_outcome _ _ _, by simp,
      (finishCancelled_isCancelled _ _ _).trans hc,
      finishCancelled_events_noOne _ hpref _⟩
  · rw [if_neg hc]
    dsimp only
    obtain ⟨hpcb4, hccb4, hproc4⟩ := execPhase_ctrlCallbacks sched.preEvents s
    have hno4 : NoOneReport (execPhase s sched.preEvents).2 :=
      noOneReport_execPhase sched.preEvents s
    have h5c : (if (execPhase s sched.preEvents).1.totalFrames ≤ 0
        then ({ (execPhase s sched.preEvents).1 with totalFrames := 300 } : JobState)
        else (execPhase s sched.preEvents).1).isCancelled =
        (execPhase s sched.preEvents).1.isCancelled := by split <;> rfl
    have h5p : (if (execPhase s sched.preEvents).1.totalFrames ≤ 0
        then ({ (execPhase s sched.preEvents).1 with totalFrames := 300 } : JobState)
        else (execPhase s sched.preEvents).1).isProcessing =
        (execPhase s sched.preEvents).1.isProcessing := by split <;> rfl
    have h5pcb : (if (execPhase s sched.preEvents).1.totalFrames ≤ 0
        then ({ (execPhase s sched.preEvents).1 with totalFrames := 300 } : JobState)
        else (execPhase s sched.preEvents).1).hasProgressCallback =
        (execPhase s sched.preEvents).1.hasProgressCallback := by split <;> rfl
    by_cases h5 : (execPhase s sched.preEvents).1.isCancelled = true
    · rw [if_pos (h5c.trans h5)]
      exact Or.inl ⟨false, finishCancelled_outcome _ _ _, by simp,
        (finishCancelled_isCancelled _ _ _).trans (h5c.trans h5),
        finishCancelled_events_noOne _ (noOneReport_append hpref hno4) _⟩
    · rw [if_neg (fun hcontra => h5 (h5c.symm.trans hcontra))]
      have hrace := execRace_cases (pref ++ (execPhase s sched.preEvents).2)
        (if (execPhase s sched.preEvents).1.totalFrames ≤ 0
          then ({ (execPhase s sched.preEvents).1 with totalFrames := 300 } : JobState)
          else (execPhase s sched.preEvents).1) chunks sched
        (h5p.trans (hproc4.trans hproc)) (noOneReport_append hpref hno4)
      rcases hrace with hl | ⟨ho, hic, hlast⟩
      · exact Or.inl hl
      · exact Or.inr ⟨ho, hic, fun hp => hlast (h5pcb.trans (hpcb4.trans hp))⟩

theorem initStage_isProcessing (s0 : JobState) (sched : Sched) :
    (initStage s0 sched).1.isProcessing = true := by
  dsimp only [initStage]
  exact (cancelIfOp_ctrlCallbacks sched.cancelDuringInit
    { s0 with isProcessing := true, isCancelled := false }).2.2

theorem initStage_hasProgressCallback (s0 : JobState) (sched : Sched) :
    (initStage s0 sched).1.hasProgressCallback = s0.hasProgressCallback := by
  dsimp only [initStage]
  exact (cancelIfOp_ctrlCallbacks sched.cancelDuringInit
    { s0 with isProcessing := true, isCancelled := false }).1

theorem initStage_noOne (s0 : JobState) (sched : Sched) :
    NoOneReport (initStage s0 sched).2 := by
  dsimp only [initStage]
  exact noOneReport_append (noOneReport_cancelIfOp _ _) (noOneReport_initial _)

theorem runEncode_eq (s0 : JobState) (chunks : List Blob) (sched : Sched)
    (h0 : s0.isProcessing = false) :
    runEncode s0 chunks sched =
      transcodePhase (initStage s0 sched).2 (initStage s0 sched).1 chunks sched := by
  unfold runEncode
  rw [if_neg (by simp [h0])]

/-- Global case analysis of one `encode()` run that is admitted by the entry
check: the run either rejects with `Operation cancelled` (timed-out only on
the engine-hang path, the cancellation flag set, and no 1.0 ever reported),
or resolves — with the pass-through fallback exactly when the engine failed
and with the transcoded container exactly when it succeeded — uncancelled,
with a final 1.0 report whenever a progress callback is registered. -/
theorem runEncode_cases (s0 : JobState) (chunks : List Blob) (sched : Sched)
    (h0 : s0.isProcessing = false) :
    (∃ t : Bool, (runEncode s0 chunks sched).outcome = RunOutcome.errCancelled t ∧
        (t = true → sched.engine = EngineRes.hang) ∧
        (runEncode s0 chunks sched).finalState.isCancelled = true ∧
        NoOneReport (runEncode s0 chunks sched).events) ∨
    (((sched.engine = EngineRes.fail ∧
          (runEncode s0 chunks sched).outcome = RunOutcome.fallback (fallbackBlob chunks)) ∨
        (sched.engine = EngineRes.succeed ∧
          (runEncode s0 chunks sched).outcome =
            RunOutcome.completed ⟨sched.encodedBytes, "video/mp4"⟩)) ∧
      (runEncode s0 chunks sched).finalState.isCancelled = false ∧
      (s0.hasProgressCallback = true →
        lastProgressValue (runEncode s0 chunks sched).events = some 1)) := by
  rw [runEncode_eq s0 chunks sched h0]
  have h := transcodePhase_cases (initStage s0 sched).2 (initStage s0 sched).1 chunks sched
    (initStage_isProcessing s0 sched) (initStage_noOne s0 sched)
  rcases h with hl | ⟨ho, hic, hlast⟩
  · exact Or.inl hl
  · exact Or.inr ⟨ho, hic, fun hp => hlast ((initStage_hasProgressCallback s0 sched).trans hp)⟩

/-! ### Concrete fixtures for witnesses and counterexamples -/

/-- A freshly constructed job with both callbacks registered. -/
def freshJob : JobState := initialJobState true true

/-- A processing job with both callbacks registered. -/
def procJob : JobState := { freshJob with isProcessing := true }

/-- Two captured segments. -/
def demoChunks : List Blob := [⟨[1, 2], "video/webm"⟩, ⟨[3], "video/webm"⟩]

/-- Quiet run in which the engine invocation rejects. -/
def failSched : Sched := ⟨false, [], [], EngineRes.fail, false, []⟩

/-- Quiet run in which the engine invocation resolves. -/
def successSched : Sched := ⟨false, [], [], EngineRes.succeed, false, [9]⟩

/-- Run in which `cancel()` arrives while `initializeFFmpeg` is awaited. -/
def initCancelSched : Sched := ⟨true, [], [], EngineRes.fail, false, []⟩

/-- Run in which `cancel()` arrives while the engine invocation is pending. -/
def midCancelSched : Sched := ⟨false, [], [ExecEv.cancelInject], EngineRes.fail, false, []⟩

/-! ### C1 -/

/-- C1 counterexample: on a Processing job with a registered cancellation
callback, two consecutive `cancel()` calls fire the cancellation callback
twice — not exactly once as the claim states. -/
theorem c1_counterexample :
    countCancelReports ((cancelOp procJob).2 ++ (cancelOp (cancelOp procJob).1).2) = 2 ∧
    countCancelReports ((cancelOp procJob).2 ++ (cancelOp (cancelOp procJob).1).2) ≠ 1 := by
  constructor
  · rfl
  · decide

/-- C1 (amended): while a job is Processing, each call of `cancel()` fires
the registered cancellation callback once — `cancel()` clears neither
`isProcessing` nor guards on `isCancelled` — so calling `cancel()` twice in a
row fires the callback exactly twice. -/
theorem c1_cancel_twice_fires_twice (s : JobState)
    (hp : s.isProcessing = true) (hc : s.hasCancellationCallback = true) :
    countCancelReports ((cancelOp s).2 ++ (cancelOp (cancelOp s).1).2) = 2 := by
  have e : ∀ t : JobState, t.isProcessing = true → t.hasCancellationCallback = true →
      (cancelOp t).2 = [Ev.cancelReport] := by
    intro t ht hc'
    simp [cancelOp, ht, hc']
  have e1 := e s hp hc
  have e2 := e (cancelOp s).1 ((cancelOp_ctrlCallbacks s).2.2.trans hp)
    ((cancelOp_ctrlCallbacks s).2.1.trans hc)
  rw [countCancelReports, e1, e2]
  rfl

/-- C1 witness: the amended statement evaluated on a concrete Processing
job. -/
theorem c1_witness :
    procJob.isProcessing = true ∧ procJob.hasCancellationCallback = true ∧
    countCancelReports ((cancelOp procJob).2 ++ (cancelOp (cancelOp procJob).1).2) = 2 :=
  ⟨rfl, rfl, c1_cancel_twice_fires_twice procJob rfl rfl⟩

/-! ### C2 -/

/-- C2 counterexample: when the engine fails mid-run without cancellation,
the run's outcome is Failed-with-fallback — not Completed — and yet the
final reported progress value is exactly 1.0, because the completion report
of lines 66-69 cannot distinguish the fallback return of `transcodeToMp4`
from a genuine transcode. -/
theorem c2_counterexample :
    (runEncode freshJob demoChunks failSched).outcome.isDone = false ∧
    (runEncode freshJob demoChunks failSched).outcome.isFallbackResult = true ∧
    lastProgressValue (runEncode freshJob demoChunks failSched).events = some 1 :=
  ⟨rfl, rfl, rfl⟩

/-- C2 (amended): for every run of `encode()` with a registered progress
callback, the final reported progress value is exactly 1.0 iff the run
resolves with a blob — outcome Completed *or* Failed-with-fallback; no 1.0 is
reported when the outcome is Cancelled or TimedOut. -/
theorem c2_final_one_iff_resolved (s0 : JobState) (chunks : List Blob) (sched : Sched)
    (h0 : s0.isProcessing = false) (hp : s0.hasProgressCallback = true) :
    lastProgressValue (runEncode s0 chunks sched).events = some 1 ↔
      ((runEncode s0 chunks sched).outcome.isDone = true ∨
        (runEncode s0 chunks sched).outcome.isFallbackResult = true) := by
  rcases runEncode_cases s0 chunks sched h0 with ⟨t, ho, _, _, hno⟩ | ⟨ho, _, hlast⟩
  · constructor
    · intro h1
      exact absurd h1 (noOneReport_lastProgressValue hno)
    · intro hres
      rcases hres with hd | hf
      · rw [ho] at hd
        simp [RunOutcome.isDone] at hd
      · rw [ho] at hf
        simp [RunOutcome.isFallbackResult] at hf
  · constructor
    · intro _
      rcases ho with ⟨_, hf⟩ | ⟨_, hcpl⟩
      · right
        rw [hf]
        rfl
      · left
        rw [hcpl]
        rfl
    · intro _
      exact hlast hp

/-- C2 witness: the amended equivalence evaluated on a concrete
engine-failure run. -/
theorem c2_witness :
    freshJob.isProcessing = false ∧ freshJob.hasProgressCallback = true ∧
    (lastProgressValue (runEncode freshJob demoChunks failSched).events = some 1 ↔
      ((runEncode freshJob demoChunks failSched).outcome.isDone = true ∨
        (runEncode freshJob demoChunks failSched).outcome.isFallbackResult = true)) :=
  ⟨rfl, rfl, c2_final_one_iff_resolved freshJob demoChunks failSched rfl rfl⟩

/-! ### C3 -/

/-- C3: when the engine invocation fails mid-run, a run on which cancellation
was never requested returns (does not throw) a blob tagged `video/mp4` whose
bytes are exactly the concatenation of the original input segments, and a
run on which cancellation was requested rejects with the cancellation error
instead. -/
theorem c3_engine_failure_fallback (s0 : JobState) (chunks : List Blob) (sched : Sched)
    (h0 : s0.isProcessing = false) (heng : sched.engine = EngineRes.fail) :
    ((runEncode s0 chunks sched).finalState.isCancelled = false →
      (runEncode s0 chunks sched).outcome =
        RunOutcome.fallback ⟨(chunks.map Blob.bytes).flatten, "video/mp4"⟩) ∧
    ((runEncode s0 chunks sched).finalState.isCancelled = true →
      (runEncode s0 chunks sched).outcome = RunOutcome.errCancelled false) := by
  rcases runEncode_cases s0 chunks sched h0 with ⟨t, ho, ht, hic, _⟩ | ⟨ho, hic, _⟩
  · constructor
    · intro hfalse
      rw [hic] at hfalse
      simp at hfalse
    · intro _
      cases t
      · exact ho
      · have hhang := ht rfl
        rw [heng] at hhang
        simp at hhang
  · constructor
    · intro _
      rcases ho with ⟨_, hf⟩ | ⟨hs, _⟩
      · exact hf
      · rw [heng] at hs
        simp at hs
    · intro htrue
      rw [hic] at htrue
      simp at htrue

/-- C3 witness: the fallback contract evaluated on a concrete
engine-failure run. -/
theorem c3_witness :
    freshJob.isProcessing = false ∧ failSched.engine = EngineRes.fail ∧
    (((runEncode freshJob demoChunks failSched).finalState.isCancelled = false →
      (runEncode freshJob demoChunks failSched).outcome =
        RunOutcome.fallback ⟨(demoChunks.map Blob.bytes).flatten, "video/mp4"⟩) ∧
     ((runEncode freshJob demoChunks failSched).finalState.isCancelled = true →
      (runEncode freshJob demoChunks failSched).outcome = RunOutcome.errCancelled false)) :=
  ⟨rfl, rfl, c3_engine_failure_fallback freshJob demoChunks failSched rfl rfl⟩

/-! ### C4 -/

/-- C4: exhibits the run on which the code violates the claim.  When
`cancel()` arrives while `encode()` awaits `initializeFFmpeg`, the
cancellation callback fires, and then the unguarded initial report of lines
59-61 still invokes the progress callback with 0.05 — a progress callback
invocation after the cancellation callback, on a cancelled run. -/
theorem c4_progress_after_cancel_trace :
    (runEncode freshJob demoChunks initCancelSched).events =
      [Ev.cancelReport, Ev.progressReport 0.05, Ev.cancelReport] ∧
    (runEncode freshJob demoChunks initCancelSched).outcome = RunOutcome.errCancelled false ∧
    progressAfterCancel (runEncode freshJob demoChunks initCancelSched).events = true :=
  ⟨rfl, rfl, rfl⟩

/-! ### C5 -/

/-- The progress-ratio formula exactly as the claim words it: 0.05 when no
frame has been observed; else the trusted-total-frames interpolation capped
at 0.99 when the estimate exceeds both the current frame and 10; else the
bounded linear fallback — in that priority order. -/
def claimProgressFormula (cf : Nat) (tf : Int) : ℚ :=
  if cf = 0 then 0.05
  else if tf > (cf : Int) ∧ tf > 10 then min (0.1 + ((cf : ℚ) / (tf : ℚ)) * 0.9) 0.99
  else min (0.1 + (min (cf : ℚ) 300) / 300 * 0.89) 0.99

/-- C5: `calculateProgress` computes, for every state of the progress
counters, exactly the claim's three-case formula with the claim's priority
order. -/
theorem c5_progress_ratio_formula (s : JobState) :
    calculateProgress s = claimProgressFormula s.currentFrame s.totalFrames := rfl

/-! ### C6 -/

/-- C6: a diagnostic line containing `Duration: N/A` and `Video:` whose
first `<W>x<H>` group reads 3840x2160 yields complexity factor
`min(3840*2160/(1920*1080), 4) = 4` and sets the safety-timeout budget to
`min(180000*4, 600000) = 600000` ms, from any prior counter state. -/
theorem c6_na_resolution_timeout (s : JobState) (msg : List Char)
    (h1 : containsSub ("Duration: N/A".toList) msg = true)
    (h2 : containsSub ("Video:".toList) msg = true)
    (h3 : scanResolution msg = some (3840, 2160)) :
    complexityFactor 3840 2160 = 4 ∧
    (extractTimeFromLog s msg).safetyTimeoutMs = 600000 := by
  have hcf : complexityFactor 3840 2160 = 4 := by
    unfold complexityFactor
    norm_num
  refine ⟨hcf, ?_⟩
  unfold extractTimeFromLog
  generalize (extractStreamFpsSection (extractFpsSection
    (extractDurationSection (extractFrameSection s msg) msg) msg) msg) = s4
  unfold extractNaSection
  rw [h1, h2, h3]
  simp only [Bool.and_self, if_true]
  unfold adjustSafetyTimeout
  dsimp only
  rw [hcf]
  norm_num

/-- A diagnostic line with unknown duration and a 4K video stream. -/
def c6Msg : List Char := ("Duration: N/A, Video: vp9, 3840x2160".toList)

/-- C6 witness: the hypotheses and the conclusion evaluated on a concrete
diagnostic line and the fresh job state. -/
theorem c6_witness :
    containsSub ("Duration: N/A".toList) c6Msg = true ∧
    containsSub ("Video:".toList) c6Msg = true ∧
    scanResolution c6Msg = some (3840, 2160) ∧
    (complexityFactor 3840 2160 = 4 ∧
      (extractTimeFromLog freshJob c6Msg).safetyTimeoutMs = 600000) :=
  ⟨by decide, by decide, by decide,
    c6_na_resolution_timeout freshJob c6Msg (by decide) (by decide) (by decide)⟩

/-! ### C7 -/

/-- A non-processing job carrying counters from a previous run. -/
def staleJob : JobState :=
  { freshJob with currentFrame := 42, totalFrames := 500, estimatedDuration := 7 }

/-- C7 counterexample: `encode()` on a non-Processing job with left-over
counters accepts the run but does *not* reset them — the new run starts with
`currentFrame = 42`, `totalFrames = 500`, `estimatedDuration = 7`. -/
theorem c7_counterexample :
    encodeEntry staleJob =
      Except.ok { staleJob with isProcessing := true, isCancelled := false } ∧
    ({ staleJob with isProcessing := true, isCancelled := false } : JobState).currentFrame = 42 ∧
    ({ staleJob with isProcessing := true, isCancelled := false } : JobState).totalFrames = 500 ∧
    (42 : Nat) ≠ 0 := by
  refine ⟨rfl, rfl, rfl, by decide⟩

/-- C7 (amended): `encode()` on a non-Processing job transitions to
Processing and clears only the cancellation flag, leaving every progress
counter (`currentFrame`, `totalFrames`, `estimatedDuration`) exactly as the
previous run left it; the counters are zeroed only by `destroy()`. -/
theorem c7_encode_keeps_counters (s : JobState) (h : s.isProcessing = false) :
    encodeEntry s = Except.ok { s with isProcessing := true, isCancelled := false } ∧
    (destroyOp s).1.currentFrame = 0 ∧ (destroyOp s).1.totalFrames = 0 ∧
    (destroyOp s).1.estimatedDuration = 0 := by
  refine ⟨?_, rfl, rfl, rfl⟩
  unfold encodeEntry
  rw [if_neg (by simp [h])]

/-- C7 witness: the amended statement evaluated on the concrete stale job. -/
theorem c7_witness :
    staleJob.isProcessing = false ∧
    (encodeEntry staleJob =
        Except.ok { staleJob with isProcessing := true, isCancelled := false } ∧
      (destroyOp staleJob).1.currentFrame = 0 ∧ (destroyOp staleJob).1.totalFrames = 0 ∧
      (destroyOp staleJob).1.estimatedDuration = 0) :=
  ⟨rfl, c7_encode_keeps_counters staleJob rfl⟩

/-! ### C8 -/

/-- C8 counterexample: a job that completes successfully never fires the
wrapped cancellation callback, so the registry performs zero removals and
the job stays in the live-job set — refuting removal "exactly once
regardless of completion path". -/
theorem c8_counterexample :
    (runEncode freshJob demoChunks successSched).outcome.isDone = true ∧
    countCancelReports (runEncode freshJob demoChunks successSched).events = 0 ∧
    (registryEffects (createEncodingJobOp ⟨[]⟩ 0) 0
      (runEncode freshJob demoChunks successSched)).2 = 0 ∧
    (registryEffects (createEncodingJobOp ⟨[]⟩ 0) 0
      (runEncode freshJob demoChunks successSched)).1.activeJobs = [0] :=
  ⟨rfl, rfl, rfl, rfl⟩

theorem autoRemove_not_mem {fs : FactoryState} {j : Nat} (hj : j ∉ fs.activeJobs) :
    autoRemove fs j = (fs, false) := by
  simp [autoRemove, hj]

theorem autoRemove_mem {fs : FactoryState} {j : Nat} (hj : j ∈ fs.activeJobs) :
    autoRemove fs j = ({ activeJobs := fs.activeJobs.erase j }, true) := by
  simp [autoRemove, hj]

theorem autoRemoveN_not_mem (j : Nat) (n : Nat) :
    ∀ fs : FactoryState, j ∉ fs.activeJobs → autoRemoveN fs j n = (fs, 0) := by
  induction n with
  | zero => intro fs _; rfl
  | succ n ih =>
      intro fs hj
      unfold autoRemoveN
      rw [autoRemove_not_mem hj]
      dsimp only
      rw [ih fs hj]
      rfl

theorem autoRemoveN_mem {fs : FactoryState} {j : Nat} (n : Nat) (hn : 1 ≤ n)
    (hnd : fs.activeJobs.Nodup) (hmem : j ∈ fs.activeJobs) :
    autoRemoveN fs j n = ({ activeJobs := fs.activeJobs.erase j }, 1) := by
  cases n with
  | zero => cases hn
  | succ n =>
      unfold autoRemoveN
      rw [autoRemove_mem hmem]
      dsimp only
      have hout : j ∉ fs.activeJobs.erase j := by
        intro hcontra
        exact absurd ((hnd.mem_erase_iff).mp hcontra).1 (by simp)
      rw [autoRemoveN_not_mem j n { activeJobs := fs.activeJobs.erase j } hout]
      rfl

/-- C8 (amended): the registry removes a job from the live set only through
the wrapped cancellation callback (at most once, however many times that
callback fires, thanks to the membership guard) or by `cancelAllJobs`
clearing the whole set; a run whose cancellation callback never fires — in
particular every successful completion — removes nothing. -/
theorem c8_removal_on_cancellation_only (fs : FactoryState) (j : Nat) (run : RunResult)
    (hnd : fs.activeJobs.Nodup) (hmem : j ∈ fs.activeJobs) :
    (1 ≤ countCancelReports run.events →
      (registryEffects fs j run).2 = 1 ∧
      (registryEffects fs j run).1.activeJobs = fs.activeJobs.erase j) ∧
    (countCancelReports run.events = 0 →
      (registryEffects fs j run).1 = fs ∧ (registryEffects fs j run).2 = 0) ∧
    (cancelAllJobs fs).activeJobs = [] ∧ getActiveJobCount (cancelAllJobs fs) = 0 := by
  refine ⟨?_, ?_, rfl, rfl⟩
  · intro hn
    unfold registryEffects
    rw [autoRemoveN_mem (countCancelReports run.events) hn hnd hmem]
    exact ⟨rfl, rfl⟩
  · intro hz
    unfold registryEffects
    rw [hz]
    exact ⟨rfl, rfl⟩

/-- C8 witness: the amended statement evaluated on a singleton registry and
a concrete cancelled run (whose cancellation callback fires twice, yet the
job is removed exactly once). -/
theorem c8_witness :
    (FactoryState.mk [7]).activeJobs.Nodup ∧ 7 ∈ (FactoryState.mk [7]).activeJobs ∧
    countCancelReports (runEncode freshJob demoChunks midCancelSched).events = 2 ∧
    ((1 ≤ countCancelReports (runEncode freshJob demoChunks midCancelSched).events →
      (registryEffects (FactoryState.mk [7]) 7 (runEncode freshJob demoChunks midCancelSched)).2 = 1 ∧
      (registryEffects (FactoryState.mk [7]) 7
        (runEncode freshJob demoChunks midCancelSched)).1.activeJobs =
          (FactoryState.mk [7]).activeJobs.erase 7) ∧
    (countCancelReports (runEncode freshJob demoChunks midCancelSched).events = 0 →
      (registryEffects (FactoryState.mk [7]) 7 (runEncode freshJob demoChunks midCancelSched)).1 =
        FactoryState.mk [7] ∧
      (registryEffects (FactoryState.mk [7]) 7
        (runEncode freshJob demoChunks midCancelSched)).2 = 0) ∧
    (cancelAllJobs (FactoryState.mk [7])).activeJobs = [] ∧
    getActiveJobCount (cancelAllJobs (FactoryState.mk [7])) = 0) :=
  ⟨by decide, by decide, rfl,
    c8_removal_on_cancellation_only (FactoryState.mk [7]) 7
      (runEncode freshJob demoChunks midCancelSched) (by decide) (by decide)⟩

/-! ### C9 -/

/-- C9: `createMixedAudioStream` with neither source present first discards
any prior graph (the state it leaves is exactly the cleaned-up state), then
returns null having allocated no audio context and no processing node and
installed no connection. -/
theorem c9_build_mix_no_sources (s : MixerState) :
    createMixedAudioStream s none none =
      { output := none, state := cleanupOp s, created := [], connections := [] } := rfl

/-! ### C10 -/

/-- C10: a non-null source stream with zero audio tracks is treated like an
absent source for chain building: with both streams non-null but trackless,
the call still returns a non-null mixed stream, allocates only the base
graph (no source, gain, or per-source chain nodes), connects nothing except
the limiter's two output edges, and produces exactly the same allocations
and connections as calls in which either trackless stream is replaced by an
absent one. -/
theorem c10_zero_track_sources (s : MixerState) (sys mic : MediaStreamM)
    (hs : sys.audioTrackCount = 0) (hm : mic.audioTrackCount = 0) :
    (createMixedAudioStream s (some sys) (some mic)).output = some () ∧
    (createMixedAudioStream s (some sys) (some mic)).created =
      [NodeId.audioCtx, NodeId.analyzer, NodeId.destNode, NodeId.micCompressor,
       NodeId.systemCompressor, NodeId.voiceEnhancer, NodeId.finalLimiter] ∧
    (createMixedAudioStream s (some sys) (some mic)).connections =
      [(NodeId.finalLimiter, NodeId.destNode), (NodeId.finalLimiter, NodeId.analyzer)] ∧
    (createMixedAudioStream s (some sys) (some mic)).created =
      (createMixedAudioStream s (some sys) none).created ∧
    (createMixedAudioStream s (some sys) (some mic)).connections =
      (createMixedAudioStream s none (some mic)).connections := by
  simp [createMixedAudioStream, hs, hm]

/-- A non-null stream with no audio tracks. -/
def zeroTrackStream : MediaStreamM := ⟨0⟩

/-- The mixer's state before any mix has been built. -/
def emptyMixer : MixerState := ⟨false, false, false, false, false, none, none⟩

/-- C10 witness: the statement evaluated on concrete trackless streams. -/
theorem c10_witness :
    zeroTrackStream.audioTrackCount = 0 ∧
    ((createMixedAudioStream emptyMixer (some zeroTrackStream) (some zeroTrackStream)).output =
        some () ∧
      (createMixedAudioStream emptyMixer (some zeroTrackStream) (some zeroTrackStream)).created =
        [NodeId.audioCtx, NodeId.analyzer, NodeId.destNode, NodeId.micCompressor,
         NodeId.systemCompressor, NodeId.voiceEnhancer, NodeId.finalLimiter] ∧
      (createMixedAudioStream emptyMixer (some zeroTrackStream) (some zeroTrackStream)).connections =
        [(NodeId.finalLimiter, NodeId.destNode), (NodeId.finalLimiter, NodeId.analyzer)] ∧
      (createMixedAudioStream emptyMixer (some zeroTrackStream) (some zeroTrackStream)).created =
        (createMixedAudioStream emptyMixer (some zeroTrackStream) none).created ∧
      (createMixedAudioStream emptyMixer (some zeroTrackStream) (some zeroTrackStream)).connections =
        (createMixedAudioStream emptyMixer none (some zeroTrackStream)).connections) :=
  ⟨rfl, c10_zero_track_sources emptyMixer zeroTrackStream zeroTrackStream rfl rfl⟩

